import Mathlib

/-!
Shallow embedding of `src/plot_trend_lines.py` (joanmarcriera/graph_trends).

The script is a one-shot numeric pipeline: cleanse a raw size column,
aggregate by calendar month, fit piecewise OLS trend lines over period
sub-ranges with a continuity/offset adjustment between two chained
segments, and annotate the maxima before and on/after a breakpoint period.

Modelling conventions:
* Real arithmetic (pandas float64 / scipy) is modelled over `ℚ`.
* A `pd.Period('M')` value is an integer month number (`year * 12 + month`),
  which is exactly pandas' internal monthly ordinal; only its linear order
  and equality are used by the script.
* Python strings are Lean `String`s; `str.replace(old, new)` with literal
  patterns is embedded by direct recursion on the character list.
* `pd.to_numeric(errors='coerce')` is modelled for plain decimal literals
  (optional sign, digits, optional fractional part); any other string maps
  to `none` (NaN).
* `scipy.stats.linregress` raises `ValueError` on empty input or when all
  x values are identical; this is modelled by an `Option` result.
-/

namespace GraphTrends

/-- Monthly period, as in `pd.Period(..., 'M')`: the integer month ordinal
`year * 12 + month`, linearly ordered. -/
abbrev Period := Int

/-- Row of the input table after column renaming and date parsing
(lines 16–22): a date (kept at month granularity, the only granularity the
script consumes via `dt.to_period('M')`) and the raw size string. -/
structure RawRecord where
  date : Period
  rawSize : String
  deriving DecidableEq, Repr

/-- Row surviving the cleansing stage (lines 24–30): month period and the
parsed numeric size in bytes. -/
structure CleanRecord where
  period : Period
  size : ℚ
  deriving DecidableEq, Repr

/-- Row of `monthly_data` (lines 32–38): a month period, the summed bytes
(`ArchivedData` column) and the rounded terabyte value (`ArchivedDataTB`). -/
structure MonthlyBucket where
  period : Period
  totalBytes : ℚ
  totalUnit : ℤ
  deriving DecidableEq, Repr

instance : Inhabited MonthlyBucket := ⟨⟨0, 0, 0⟩⟩

/-- Embedding of Python's `s.replace('.00', '', regex=False)` from line 25:
removes every non-overlapping occurrence of the literal substring `.00`,
scanning left to right. -/
def stripDot00 : List Char → List Char
  | '.' :: '0' :: '0' :: rest => stripDot00 rest
  | c :: rest => c :: stripDot00 rest
  | [] => []

/-- Whether the character list contains an occurrence of the substring
`.00`, the pattern line 25's replacement removes. Used to express which
strings the replacement leaves untouched. -/
def hasDot00 : List Char → Bool
  | '.' :: '0' :: '0' :: _ => true
  | _ :: rest => hasDot00 rest
  | [] => false

/-- Embedding of Python's `s.replace(',', '')` from line 25: removes every
comma. -/
def removeCommas (cs : List Char) : List Char :=
  cs.filter (fun c => c ≠ ',')

/-- The Numeric Cleanser's string transformation (line 25):
`.str.replace('.00', '', regex=False).str.replace(',', '')`. -/
def cleanse (s : String) : String :=
  ⟨removeCommas (stripDot00 s.data)⟩

/-- Strips a '.00' only when it is a trailing suffix of the string. This
definition follows the spec's words, not the source, and exists solely to
be compared against `cleanse`. -/
def stripSuffixDot00 (cs : List Char) : List Char :=
  if ['.', '0', '0'].isSuffixOf cs then cs.dropLast.dropLast.dropLast else cs

/-- Spec-worded cleanser: strip a literal '.00' occurring as a trailing
suffix, then remove thousands-separator commas; all other characters are
left intact. Written from the spec's words to be compared with `cleanse`. -/
def cleanse_spec (s : String) : String :=
  ⟨removeCommas (stripSuffixDot00 s.data)⟩

/-- Value of a list of decimal digit characters, most significant first. -/
def digitsToNat (cs : List Char) : ℕ :=
  cs.foldl (fun n c => 10 * n + (c.toNat - 48)) 0

/-- Parses an unsigned decimal literal (digits, optionally a point and more
digits, at least one digit overall) to a rational; any other shape is
`none`. Together with `toNumeric` this models `pd.to_numeric(errors='coerce')`
on the plain decimal strings this pipeline produces. -/
def parseUnsigned (cs : List Char) : Option ℚ :=
  let intPart := cs.takeWhile Char.isDigit
  let rest := cs.dropWhile Char.isDigit
  match rest with
  | [] => if intPart = [] then none else some (digitsToNat intPart : ℚ)
  | '.' :: fr =>
      if fr.all Char.isDigit ∧ (intPart ≠ [] ∨ fr ≠ []) then
        some ((digitsToNat intPart : ℚ) + (digitsToNat fr : ℚ) / 10 ^ fr.length)
      else none
  | _ => none

/-- Model of `pd.to_numeric(errors='coerce')` (line 26) on decimal literals:
optional sign then an unsigned decimal; unparsable strings become `none`
(NaN). -/
def toNumeric (s : String) : Option ℚ :=
  match s.data with
  | '-' :: rest => (parseUnsigned rest).map (fun q => -q)
  | '+' :: rest => parseUnsigned rest
  | cs => parseUnsigned cs

/-- Fate of a single row in the cleansing stage (lines 24–30): cleanse the
raw size string, coerce to numeric, and drop the row when the value is NaN
(`dropna`) or equal to zero. -/
def cleanOne (r : RawRecord) : Option CleanRecord :=
  match toNumeric (cleanse r.rawSize) with
  | none => none
  | some v => if v = 0 then none else some ⟨r.date, v⟩

/-- The cleansing stage applied to the whole table (lines 24–30). -/
def cleanRecords (rows : List RawRecord) : List CleanRecord :=
  rows.filterMap cleanOne

/-- Round half to even on `ℚ`, the convention of numpy's `round` used by
pandas `.round()` on line 35 (division by `1024 ** 4 = 2 ^ 40` is exact in
binary floating point, so the float pipeline realises exactly this map). -/
def roundHalfEven (q : ℚ) : ℤ :=
  let f := ⌊q⌋
  if q - f < 1 / 2 then f
  else if 1 / 2 < q - f then f + 1
  else if 2 ∣ f then f else f + 1

/-- Bytes per output unit: `1024 ** 4` (line 35). -/
def unitDivisor : ℚ := 1024 ^ 4

/-- The Monthly Aggregator (lines 32–38): group clean records by month
period, sum the byte sizes per group, convert to rounded terabytes, and
order the buckets by period ascending (pandas `groupby` sorts its keys;
`sort_values` then keeps that order). The list position is the ordinal the
`reset_index` range index assigns. -/
def monthly_data (records : List CleanRecord) : List MonthlyBucket :=
  let periods := List.insertionSort (· ≤ ·) (records.map (·.period)).dedup
  periods.map (fun p =>
    let total := ((records.filter (fun r => r.period = p)).map (·.size)).sum
    ⟨p, total, roundHalfEven (total / unitDivisor)⟩)

/-- Model of `scipy.stats.linregress(x, y)` restricted to the slope and
intercept the script uses (line 45). scipy raises `ValueError` on empty
inputs and when all x values are identical (zero x-variance); both are
`none` here. Otherwise `slope = (n Σxy − Σx Σy) / (n Σx² − (Σx)²)` and
`intercept = (Σy − slope Σx) / n`, the ordinary least squares solution. -/
def linregress (x y : List ℚ) : Option (ℚ × ℚ) :=
  let n : ℕ := x.length
  if n = 0 then none
  else
    let sx := x.sum
    let sy := y.sum
    let sxx := (x.map (fun a => a * a)).sum
    let sxy := (List.zipWith (fun a b => a * b) x y).sum
    let d := (n : ℚ) * sxx - sx * sx
    if d = 0 then none
    else
      let slope := ((n : ℚ) * sxy - sx * sy) / d
      some (slope, (sy - slope * sx) / n)

/-- Whether a bucket's period lies in the closed range `[s, e]` (line 42). -/
def inRange (s e : Period) (b : MonthlyBucket) : Bool :=
  decide (s ≤ b.period ∧ b.period ≤ e)

/-- `get_trendline_params` (lines 41–46): select the buckets whose period
lies in `[s, e]`, regress `ArchivedDataTB` against `np.arange(len(subset))`
(the local ordinals 0..k−1), and return slope, intercept and the subset. -/
def get_trendline_params (data : List MonthlyBucket) (s e : Period) :
    Option (ℚ × ℚ × List MonthlyBucket) :=
  let subset := data.filter (inRange s e)
  let xvals := (List.range subset.length).map (fun i => (i : ℚ))
  let yvals := subset.map (fun b => (b.totalUnit : ℚ))
  (linregress xvals yvals).map (fun p => (p.1, p.2, subset))

/-- The pandas index labels of the selected sub-range inside the full
series: `monthly_data` carries the range index 0..N−1 from `reset_index`
(line 34), and a boolean-mask selection keeps the original labels, so the
subset's `.index` is the list of global positions of the selected rows. -/
def subsetIndices (data : List MonthlyBucket) (s e : Period) : List ℕ :=
  (List.range data.length).filter (fun i => inRange s e (data.getD i default))

/-- The trend array computed on lines 63–65:
`subset.index * slope + intercept`, i.e. the fitted line evaluated at the
subset's global index labels. -/
def trend_line (data : List MonthlyBucket) (s e : Period) : Option (List ℚ) :=
  (get_trendline_params data s e).map (fun p =>
    (subsetIndices data s e).map (fun i => (i : ℚ) * p.1 + p.2.1))

/-- Fitted values as the spec's TrendSegment invariant states them:
`fittedValues[i] = slope * i_local + intercept` over the segment's local
ordinals 0..k−1. Written from the spec's words to be compared with
`trend_line`. -/
def fittedValuesLocal (data : List MonthlyBucket) (s e : Period) : Option (List ℚ) :=
  (get_trendline_params data s e).map (fun p =>
    (List.range p.2.2.length).map (fun i => p.1 * (i : ℚ) + p.2.1))

/-- The chained two-segment computation of lines 49–61: fit segment A and
segment B independently, compute A's fitted value at its last local ordinal
(`end_value_2017`, lines 52–53) and B's fitted value at local ordinal 0
with the raw intercept (`start_value_2018`, lines 59–60), then shift B's
intercept by `end_value − start_value − gap` (line 61, `gap = 1500` in the
script). Returns `(slopeA, interceptA, slopeB, adjusted interceptB)`. -/
def chained (data : List MonthlyBucket) (sA eA sB eB : Period) (gap : ℚ) :
    Option (ℚ × ℚ × ℚ × ℚ) :=
  match get_trendline_params data sA eA, get_trendline_params data sB eB with
  | some (slopeA, interceptA, subA), some (slopeB, interceptB, _) =>
      let endValue := ((subA.length - 1 : ℕ) : ℚ) * slopeA + interceptA
      let startValue := (0 : ℚ) * slopeB + interceptB
      some (slopeA, interceptA, slopeB, interceptB + (endValue - startValue - gap))
  | _, _ => none

/-- `ArchivedDataTB` value of the bucket at a global index. -/
def tbVal (ms : List MonthlyBucket) (i : ℕ) : ℤ :=
  (ms.getD i default).totalUnit

/-- First index (in list order) attaining the maximum value: the behaviour
of pandas `Series.idxmax`, which returns the label of the first occurrence
of the maximum. -/
def argmaxIdx (v : ℕ → ℤ) : List ℕ → Option ℕ
  | [] => none
  | i :: rest =>
      match argmaxIdx v rest with
      | none => some i
      | some j => if v j > v i then some j else some i

/-- Lines 104–106: `monthly_data[monthly_data['YearMonth'] < B]['ArchivedDataTB'].idxmax()`
— the index label of the first maximal terabyte value among buckets with
period strictly before the breakpoint. -/
def highest_point_before (ms : List MonthlyBucket) (b : Period) : Option ℕ :=
  argmaxIdx (tbVal ms)
    ((List.range ms.length).filter (fun i => decide ((ms.getD i default).period < b)))

/-- Lines 108–110: the index label of the first maximal terabyte value
among buckets with period on or after the breakpoint. -/
def highest_point_on_after (ms : List MonthlyBucket) (b : Period) : Option ℕ :=
  argmaxIdx (tbVal ms)
    ((List.range ms.length).filter (fun i => decide (b ≤ (ms.getD i default).period)))

/-! ## Lemmas about the cleansing stage -/

/-- Unfolding step for `stripDot00` when the string does not begin with a
`.00` occurrence: the head character is kept verbatim. -/
theorem stripDot00_cons_not_start (c : Char) (rest : List Char)
    (h : ∀ t : List Char, c :: rest ≠ '.' :: '0' :: '0' :: t) :
    stripDot00 (c :: rest) = c :: stripDot00 rest := by
  rw [stripDot00.eq_def]
  split
  · rename_i t heq
    exact absurd heq (h t)
  · rename_i heq
    injection heq with h1 h2
    subst h1; subst h2; rfl
  · rename_i heq
    exact absurd heq (by simp)

/-- Unfolding step for `hasDot00` when the string does not begin with a
`.00` occurrence. -/
theorem hasDot00_cons_not_start (c : Char) (rest : List Char)
    (h : ∀ t : List Char, c :: rest ≠ '.' :: '0' :: '0' :: t) :
    hasDot00 (c :: rest) = hasDot00 rest := by
  rw [hasDot00.eq_def]
  split
  · rename_i t heq
    exact absurd heq (h t)
  · rename_i heq
    injection heq with h1 h2
    subst h2; rfl
  · rename_i heq
    exact absurd heq (by simp)

/-- The tail of an occurrence-free string is occurrence-free. -/
theorem hasDot00_of_cons {c : Char} {rest : List Char}
    (h : hasDot00 (c :: rest) = false) : hasDot00 rest = false := by
  by_cases hstart : ∃ t : List Char, c :: rest = '.' :: '0' :: '0' :: t
  · obtain ⟨t, ht⟩ := hstart
    rw [ht] at h
    exact absurd h (by simp [hasDot00])
  · rw [← hasDot00_cons_not_start c rest (fun t hteq => hstart ⟨t, hteq⟩)]
    exact h

/-- A string containing no `.00` occurrence — dots elsewhere included, as
in `"1.5"` — is untouched by line 25's replacement. -/
theorem stripDot00_of_not_hasDot00 : ∀ (cs : List Char), hasDot00 cs = false →
    stripDot00 cs = cs := by
  intro cs
  induction cs with
  | nil => intro _; rfl
  | cons c rest ih =>
      intro h
      by_cases hstart : ∃ t : List Char, c :: rest = '.' :: '0' :: '0' :: t
      · obtain ⟨t, ht⟩ := hstart
        rw [ht] at h
        exact absurd h (by simp [hasDot00])
      · rw [stripDot00_cons_not_start c rest (fun t hteq => hstart ⟨t, hteq⟩),
          ih (hasDot00_of_cons h)]

/-- Left-to-right recursion of the replacement: an occurrence following an
occurrence-free prefix is removed, the prefix is kept verbatim, and the
replacement continues on the arbitrary remainder `b` — so every later
occurrence is removed too. (No occurrence can straddle the junction: the
explicit occurrence starts with a dot, so a straddling match would force a
`.00` occurrence inside the prefix.) -/
theorem stripDot00_append_occ : ∀ (a b : List Char), hasDot00 a = false →
    stripDot00 (a ++ '.' :: '0' :: '0' :: b) = a ++ stripDot00 b := by
  intro a b
  induction a with
  | nil =>
      intro _
      simp [stripDot00]
  | cons c a ih =>
      intro h
      have hstart : ∀ t : List Char,
          c :: (a ++ '.' :: '0' :: '0' :: b) ≠ '.' :: '0' :: '0' :: t := by
        intro t ht
        injection ht with h1 h2
        cases a with
        | nil =>
            rw [List.nil_append] at h2
            injection h2 with h3 _
            exact absurd h3 (by decide)
        | cons x a' =>
            rw [List.cons_append] at h2
            injection h2 with h3 h4
            cases a' with
            | nil =>
                rw [List.nil_append] at h4
                injection h4 with h5 _
                exact absurd h5 (by decide)
            | cons y a'' =>
                rw [List.cons_append] at h4
                injection h4 with h5 _
                subst h1
                subst h3
                subst h5
                exact absurd h (by simp [hasDot00])
      rw [List.cons_append, stripDot00_cons_not_start _ _ hstart, ih (hasDot00_of_cons h),
        List.cons_append]

/-- Claim C3 counterexample: on `"1.001"` (whose `.00` is not a trailing
suffix and which has no comma) the code's cleanser produces `"11"`, whereas
the claimed suffix-only cleanser leaves the string intact — so the
transformation does not remove only a trailing `.00`. -/
theorem cleanse_not_suffix_only :
    cleanse "1.001" = "11" ∧ cleanse_spec "1.001" = "1.001" ∧
      cleanse "1.001" ≠ cleanse_spec "1.001" := by decide

/-- Claim C3 (amended): the transformation before numeric parsing removes
every non-overlapping occurrence of the literal substring `.00`, scanning
left to right — wherever it occurs, not only as a trailing suffix — plus
all commas; characters not part of such an occurrence are left intact,
dots included. Conjuncts 1–2: the first occurrence after an
occurrence-free prefix is removed and the transformation recurses on the
arbitrary remainder `b`, so iterating this equation removes every
occurrence in turn (this fails for a cleanser replacing only the first
occurrence). Conjuncts 3–4: a string with no occurrence at all — such as
`"1.5"` — keeps every character except commas (this fails for a cleanser
deleting every dot). Together the two equations determine the cleanser on
all inputs by recursion on the leftmost occurrence. -/
theorem cleanse_removes_all_dot00 (a b cs : List Char)
    (ha : hasDot00 a = false) (hcs : hasDot00 cs = false) :
    stripDot00 (a ++ '.' :: '0' :: '0' :: b) = a ++ stripDot00 b
    ∧ cleanse (String.mk (a ++ '.' :: '0' :: '0' :: b))
        = String.mk (removeCommas a ++ removeCommas (stripDot00 b))
    ∧ stripDot00 cs = cs
    ∧ cleanse (String.mk cs) = String.mk (removeCommas cs) := by
  refine ⟨stripDot00_append_occ a b ha, ?_, stripDot00_of_not_hasDot00 cs hcs, ?_⟩
  · show String.mk (removeCommas (stripDot00 (a ++ '.' :: '0' :: '0' :: b))) = _
    rw [stripDot00_append_occ a b ha]
    unfold removeCommas
    rw [List.filter_append]
  · show String.mk (removeCommas (stripDot00 cs)) = _
    rw [stripDot00_of_not_hasDot00 cs hcs]

/-- Claim C3 witness: the amended statement instantiated with prefix
`"1"`, remainder `"2.003"` (which still contains an occurrence, itself
removed: `cleanse "1.002.003" = "123"`), and the occurrence-free `"1.5"`,
which stays intact. -/
theorem cleanse_removes_all_dot00_witness :
    hasDot00 ['1'] = false ∧ hasDot00 ['1', '.', '5'] = false
    ∧ cleanse "1.002.003" = "123" ∧ cleanse "1.5" = "1.5"
    ∧ (stripDot00 (['1'] ++ '.' :: '0' :: '0' :: ['2', '.', '0', '0', '3'])
          = ['1'] ++ stripDot00 ['2', '.', '0', '0', '3']
      ∧ cleanse (String.mk (['1'] ++ '.' :: '0' :: '0' :: ['2', '.', '0', '0', '3']))
          = String.mk (removeCommas ['1'] ++ removeCommas (stripDot00 ['2', '.', '0', '0', '3']))
      ∧ stripDot00 ['1', '.', '5'] = ['1', '.', '5']
      ∧ cleanse (String.mk ['1', '.', '5']) = String.mk (removeCommas ['1', '.', '5'])) :=
  ⟨by decide, by decide, by decide, by decide,
    cleanse_removes_all_dot00 ['1'] ['2', '.', '0', '0', '3'] ['1', '.', '5']
      (by decide) (by decide)⟩

/-- Claim C9 counterexample: a raw size parsing to the finite negative
number −5 is not dropped — it survives cleansing with a negative
`sizeBytes`, contradicting the claimed non-negativity of clean records. -/
theorem negative_size_survives_cx :
    cleanRecords [⟨0, "-5"⟩] = [⟨0, -5⟩] ∧ ((-5 : ℚ) < 0) := by
  constructor
  · decide
  · norm_num

/-- Claim C9 (amended): the cleanser drops a record only when its cleansed
raw size fails to parse or parses to exactly zero; a raw size parsing to a
finite negative number survives, producing a clean record with negative
`sizeBytes` — surviving records are not guaranteed non-negative. -/
theorem negative_size_survives (rows₁ rows₂ : List RawRecord) (r : RawRecord) (v : ℚ)
    (hv : toNumeric (cleanse r.rawSize) = some v) (hneg : v < 0) :
    (⟨r.date, v⟩ : CleanRecord) ∈ cleanRecords (rows₁ ++ r :: rows₂) := by
  unfold cleanRecords
  rw [List.filterMap_append]
  apply List.mem_append_right
  have hf : cleanOne r = some ⟨r.date, v⟩ := by
    unfold cleanOne
    rw [hv]
    simp [ne_of_lt hneg]
  rw [List.filterMap_cons_some hf]
  exact List.mem_cons_self _ _

/-- Claim C9 witness: the record with raw size `"-5"` survives with size −5. -/
theorem negative_size_survives_witness :
    toNumeric (cleanse "-5") = some (-5) ∧ ((-5 : ℚ) < 0) ∧
      ((⟨0, -5⟩ : CleanRecord) ∈ cleanRecords ([] ++ (⟨0, "-5"⟩ : RawRecord) :: [])) :=
  ⟨by decide, by norm_num,
    negative_size_survives [] [] ⟨0, "-5"⟩ (-5) (by decide) (by norm_num)⟩

/-- Claim C7: a record whose raw size fails to parse after cleansing, or
parses to exactly zero, contributes to no monthly bucket — removing it from
the input leaves every aggregated bucket unchanged. -/
theorem invalid_or_zero_no_contribution (rows₁ rows₂ : List RawRecord) (r : RawRecord)
    (h : toNumeric (cleanse r.rawSize) = none ∨ toNumeric (cleanse r.rawSize) = some 0) :
    monthly_data (cleanRecords (rows₁ ++ r :: rows₂)) =
      monthly_data (cleanRecords (rows₁ ++ rows₂)) := by
  have hf : cleanOne r = none := by
    unfold cleanOne
    rcases h with h | h
    · rw [h]
    · rw [h]; simp
  have hc : cleanRecords (rows₁ ++ r :: rows₂) = cleanRecords (rows₁ ++ rows₂) := by
    unfold cleanRecords
    rw [List.filterMap_append, List.filterMap_append, List.filterMap_cons_none hf]
  rw [hc]

/-- Claim C7 witness: inserting the unparsable record `"zz"` changes no
bucket. -/
theorem invalid_or_zero_no_contribution_witness :
    (toNumeric (cleanse "zz") = none ∨ toNumeric (cleanse "zz") = some 0) ∧
      monthly_data (cleanRecords ([⟨0, "5"⟩] ++ (⟨0, "zz"⟩ : RawRecord) :: [])) =
        monthly_data (cleanRecords ([⟨0, "5"⟩] ++ [])) :=
  ⟨Or.inl (by decide),
    invalid_or_zero_no_contribution [⟨0, "5"⟩] [] ⟨0, "zz"⟩ (Or.inl (by decide))⟩

/-! ## Lemmas about the Monthly Aggregator -/

/-- The periods of the aggregated buckets are the sorted deduplicated
periods of the input records. -/
theorem monthly_data_map_period (records : List CleanRecord) :
    (monthly_data records).map (·.period)
      = List.insertionSort (· ≤ ·) (records.map (·.period)).dedup := by
  unfold monthly_data
  rw [List.map_map]
  exact List.map_id _

/-- Every aggregated bucket carries the sum of the sizes of its month and
the half-to-even rounded terabyte value of that sum. -/
theorem mem_monthly_data {records : List CleanRecord} {b : MonthlyBucket}
    (hb : b ∈ monthly_data records) :
    b.totalBytes = ((records.filter (fun r => r.period = b.period)).map (·.size)).sum
    ∧ b.totalUnit = roundHalfEven (b.totalBytes / unitDivisor) := by
  unfold monthly_data at hb
  rw [List.mem_map] at hb
  obtain ⟨p, _, rfl⟩ := hb
  exact ⟨rfl, rfl⟩

/-- Claim C4: the Monthly Aggregator produces buckets with strictly
increasing periods (ordinal = sort position), exactly the distinct periods
present in the records, and each bucket's `totalUnit` is the rounding of
its month's byte sum divided by `1024 ^ 4`. -/
theorem monthly_aggregation_spec (records : List CleanRecord) :
    ((monthly_data records).map (·.period)).Pairwise (· < ·)
    ∧ (∀ p : Period, p ∈ (monthly_data records).map (·.period) ↔ p ∈ records.map (·.period))
    ∧ ∀ b ∈ monthly_data records,
        b.totalBytes = ((records.filter (fun r => r.period = b.period)).map (·.size)).sum
        ∧ b.totalUnit = roundHalfEven (b.totalBytes / unitDivisor) := by
  refine ⟨?_, ?_, fun b hb => mem_monthly_data hb⟩
  · rw [monthly_data_map_period]
    have hsorted : List.Sorted (· ≤ ·)
        (List.insertionSort (· ≤ ·) (records.map (·.period)).dedup) :=
      List.sorted_insertionSort _ _
    have hnodup : (List.insertionSort (· ≤ ·) (records.map (·.period)).dedup).Nodup :=
      (List.perm_insertionSort _ _).symm.nodup (List.nodup_dedup _)
    exact (hsorted.and hnodup).imp (fun h => lt_of_le_of_ne h.1 h.2)
  · intro p
    rw [monthly_data_map_period, (List.perm_insertionSort _ _).mem_iff, List.mem_dedup]

/-- Claim C4 witness: the bucket structure evaluated on a one-record input. -/
theorem monthly_aggregation_spec_witness :
    ((⟨0, 5, 0⟩ : MonthlyBucket) ∈ monthly_data [⟨0, 5⟩])
    ∧ ((⟨0, 5, 0⟩ : MonthlyBucket).totalBytes
        = ((([⟨0, 5⟩] : List CleanRecord).filter
            (fun r => r.period = (⟨0, 5, 0⟩ : MonthlyBucket).period)).map (·.size)).sum
      ∧ (⟨0, 5, 0⟩ : MonthlyBucket).totalUnit
          = roundHalfEven ((⟨0, 5, 0⟩ : MonthlyBucket).totalBytes / unitDivisor)) := by
  have heval : monthly_data [⟨0, 5⟩] = [⟨0, 5, 0⟩] := by
    have hf : Int.fract ((5:ℚ) / 1099511627776) = 5 / 1099511627776 :=
      Int.fract_eq_self.mpr ⟨by norm_num, by norm_num⟩
    norm_num [monthly_data, roundHalfEven, unitDivisor, List.insertionSort, List.orderedInsert,
      hf]
  have hmem : (⟨0, 5, 0⟩ : MonthlyBucket) ∈ monthly_data [⟨0, 5⟩] := by
    rw [heval]
    exact List.mem_cons_self _ _
  exact ⟨hmem, (monthly_aggregation_spec [⟨0, 5⟩]).2.2 _ hmem⟩

/-- Claim C6: aggregation is invariant under permutation of the clean
records — same periods, same totals, same order, same ordinals. -/
theorem monthly_data_perm_invariant (l₁ l₂ : List CleanRecord) (h : l₁.Perm l₂) :
    monthly_data l₁ = monthly_data l₂ := by
  unfold monthly_data
  have hperm : ((l₁.map (·.period)).dedup).Perm ((l₂.map (·.period)).dedup) :=
    (h.map _).dedup
  have hsort : List.insertionSort (· ≤ ·) (l₁.map (·.period)).dedup
      = List.insertionSort (· ≤ ·) (l₂.map (·.period)).dedup :=
    List.eq_of_perm_of_sorted
      (((List.perm_insertionSort _ _).trans hperm).trans (List.perm_insertionSort _ _).symm)
      (List.sorted_insertionSort _ _) (List.sorted_insertionSort _ _)
  rw [hsort]
  apply List.map_congr_left
  intro p _
  have hsum : ((l₁.filter (fun r => r.period = p)).map (·.size)).sum
      = ((l₂.filter (fun r => r.period = p)).map (·.size)).sum :=
    ((h.filter _).map _).sum_eq
  rw [hsum]

/-- Claim C6 witness: a two-record input and its transposition aggregate
identically. -/
theorem monthly_data_perm_invariant_witness :
    ([⟨0, 1⟩, ⟨1, 2⟩] : List CleanRecord).Perm [⟨1, 2⟩, ⟨0, 1⟩] ∧
      monthly_data [⟨0, 1⟩, ⟨1, 2⟩] = monthly_data [⟨1, 2⟩, ⟨0, 1⟩] :=
  ⟨by decide, monthly_data_perm_invariant _ _ (by decide)⟩

/-- Claim C10: when a month's byte sum divided by `1024 ^ 4` is exactly
halfway between two integers, the bucket's `totalUnit` is one of the two
neighbours and is even — the implementation's rounding convention is round
half to even. -/
theorem totalUnit_half_to_even (records : List CleanRecord) (b : MonthlyBucket)
    (hb : b ∈ monthly_data records) (n : ℤ)
    (hhalf : b.totalBytes / unitDivisor = (n : ℚ) + 1 / 2) :
    Even b.totalUnit ∧ (b.totalUnit = n ∨ b.totalUnit = n + 1) := by
  have h2 := (mem_monthly_data hb).2
  rw [hhalf] at h2
  rw [roundHalfEven] at h2
  rw [show ⌊(n : ℚ) + 1 / 2⌋ = n from by rw [add_comm, Int.floor_add_int]; norm_num] at h2
  rw [show ((n : ℚ) + 1 / 2 - (n : ℤ)) = 1 / 2 from by ring] at h2
  rw [if_neg (by norm_num), if_neg (by norm_num)] at h2
  by_cases hn : (2 : ℤ) ∣ n
  · rw [if_pos hn] at h2
    obtain ⟨k, hk⟩ := hn
    exact ⟨⟨k, by omega⟩, Or.inl h2⟩
  · rw [if_neg hn] at h2
    refine ⟨?_, Or.inr h2⟩
    rw [h2]
    exact ⟨(n + 1) / 2, by omega⟩

/-- Claim C10 witness: a month summing to `3 · 2³⁹` bytes gives quotient
`3/2`, and the bucket holds the even neighbour `2`. -/
theorem totalUnit_half_to_even_witness :
    ((⟨0, 3 * 2 ^ 39, 2⟩ : MonthlyBucket) ∈ monthly_data [⟨0, 3 * 2 ^ 39⟩])
    ∧ ((⟨0, 3 * 2 ^ 39, 2⟩ : MonthlyBucket).totalBytes / unitDivisor = ((1 : ℤ) : ℚ) + 1 / 2)
    ∧ (Even (⟨0, 3 * 2 ^ 39, 2⟩ : MonthlyBucket).totalUnit
        ∧ ((⟨0, 3 * 2 ^ 39, 2⟩ : MonthlyBucket).totalUnit = 1
          ∨ (⟨0, 3 * 2 ^ 39, 2⟩ : MonthlyBucket).totalUnit = 1 + 1)) := by
  have heval : monthly_data [⟨0, 3 * 2 ^ 39⟩] = [⟨0, 3 * 2 ^ 39, 2⟩] := by
    have hf : Int.fract ((3:ℚ) / 2) = 1 / 2 := by
      rw [Int.fract]
      norm_num
    norm_num [monthly_data, roundHalfEven, unitDivisor, List.insertionSort, List.orderedInsert,
      hf]
  have hmem : (⟨0, 3 * 2 ^ 39, 2⟩ : MonthlyBucket) ∈ monthly_data [⟨0, 3 * 2 ^ 39⟩] := by
    rw [heval]
    exact List.mem_cons_self _ _
  have hh : (⟨0, 3 * 2 ^ 39, 2⟩ : MonthlyBucket).totalBytes / unitDivisor
      = ((1 : ℤ) : ℚ) + 1 / 2 := by
    norm_num [unitDivisor]
  exact ⟨hmem, hh, totalUnit_half_to_even [⟨0, 3 * 2 ^ 39⟩] _ hmem 1 hh⟩

/-! ## Lemmas about the Piecewise Trend Fitter -/

/-- Claim C8: a period range selecting a sub-range of length 0 or 1 makes
the fitter signal an error (scipy's `ValueError` on empty input or
identical x values, modelled as `none`); in particular no result with
slope 0 is returned. -/
theorem trendline_insufficient_data (data : List MonthlyBucket) (s e : Period)
    (h : (data.filter (inRange s e)).length ≤ 1) :
    get_trendline_params data s e = none := by
  simp only [get_trendline_params]
  rcases Nat.le_one_iff_eq_zero_or_eq_one.mp h with h0 | h1
  · rw [h0]
    simp [linregress]
  · rw [h1]
    have hx : (List.range 1).map (fun i => (i : ℚ)) = [0] := by
      simp [List.range_succ]
    rw [hx]
    norm_num [linregress]

/-- Claim C8 witness: a range selecting one of two buckets yields an error. -/
theorem trendline_insufficient_data_witness :
    (([⟨0, 0, 5⟩, ⟨1, 0, 7⟩] : List MonthlyBucket).filter (inRange 1 1)).length ≤ 1 ∧
      get_trendline_params [⟨0, 0, 5⟩, ⟨1, 0, 7⟩] 1 1 = none :=
  ⟨by decide, trendline_insufficient_data _ 1 1 (by decide)⟩

/-- Claim C2: whenever both segments fit, the chained computation shifts
B's intercept by exactly `endValue1 − startValue2 − gap`, applied once on
top of the unadjusted OLS intercept with the slope untouched (no refit),
and B's fitted value at local ordinal 0 under the adjusted intercept equals
A's fitted value at its last local ordinal minus the gap. -/
theorem chained_intercept_shift (data : List MonthlyBucket) (sA eA sB eB : Period)
    (gap : ℚ) (slA icA : ℚ) (subA : List MonthlyBucket) (slB icB : ℚ)
    (subB : List MonthlyBucket)
    (hA : get_trendline_params data sA eA = some (slA, icA, subA))
    (hB : get_trendline_params data sB eB = some (slB, icB, subB)) :
    chained data sA eA sB eB gap
        = some (slA, icA, slB,
            icB + ((((subA.length - 1 : ℕ) : ℚ) * slA + icA) - ((0 : ℚ) * slB + icB) - gap))
    ∧ (0 : ℚ) * slB
        + (icB + ((((subA.length - 1 : ℕ) : ℚ) * slA + icA) - ((0 : ℚ) * slB + icB) - gap))
        = (((subA.length - 1 : ℕ) : ℚ) * slA + icA) - gap := by
  constructor
  · unfold chained
    rw [hA, hB]
  · ring

/-- Claim C2 witness: with fits `y = x` over ordinals 0–1 (`endValue1 = 1`)
and `y = x + 2` over ordinals 2–3 (`startValue2 = 2`), `gap = 50` shifts
B's intercept to `2 + (1 − 2 − 50) = −49 = endValue1 − gap`. -/
theorem chained_intercept_shift_witness :
    get_trendline_params [⟨0, 0, 0⟩, ⟨1, 0, 1⟩, ⟨2, 0, 2⟩, ⟨3, 0, 3⟩] 0 1
        = some (1, 0, [⟨0, 0, 0⟩, ⟨1, 0, 1⟩])
    ∧ get_trendline_params [⟨0, 0, 0⟩, ⟨1, 0, 1⟩, ⟨2, 0, 2⟩, ⟨3, 0, 3⟩] 2 3
        = some (1, 2, [⟨2, 0, 2⟩, ⟨3, 0, 3⟩])
    ∧ chained [⟨0, 0, 0⟩, ⟨1, 0, 1⟩, ⟨2, 0, 2⟩, ⟨3, 0, 3⟩] 0 1 2 3 50
        = some (1, 0, 1, -49) := by
  have hA : get_trendline_params [⟨0, 0, 0⟩, ⟨1, 0, 1⟩, ⟨2, 0, 2⟩, ⟨3, 0, 3⟩] 0 1
      = some (1, 0, [⟨0, 0, 0⟩, ⟨1, 0, 1⟩]) := by
    have hfilt : ([⟨0, 0, 0⟩, ⟨1, 0, 1⟩, ⟨2, 0, 2⟩, ⟨3, 0, 3⟩] : List MonthlyBucket).filter
        (inRange 0 1) = [⟨0, 0, 0⟩, ⟨1, 0, 1⟩] := by decide
    simp only [get_trendline_params, hfilt]
    norm_num [linregress, List.range_succ]
  have hB : get_trendline_params [⟨0, 0, 0⟩, ⟨1, 0, 1⟩, ⟨2, 0, 2⟩, ⟨3, 0, 3⟩] 2 3
      = some (1, 2, [⟨2, 0, 2⟩, ⟨3, 0, 3⟩]) := by
    have hfilt : ([⟨0, 0, 0⟩, ⟨1, 0, 1⟩, ⟨2, 0, 2⟩, ⟨3, 0, 3⟩] : List MonthlyBucket).filter
        (inRange 2 3) = [⟨2, 0, 2⟩, ⟨3, 0, 3⟩] := by decide
    simp only [get_trendline_params, hfilt]
    norm_num [linregress, List.range_succ]
  have hm := (chained_intercept_shift _ 0 1 2 3 50 1 0 _ 1 2 _ hA hB).1
  refine ⟨hA, hB, ?_⟩
  rw [hm]
  norm_num

/-- Claim C1 as a code-level fact: the script's trend arrays (lines 63–65)
evaluate the fitted line at the subset's global index labels, not at the
local ordinals the regression was computed against. On a series whose
selected sub-range starts at global ordinal 1 with fit `y = x` (slope 1,
intercept 0), the code produces `[1, 2, 3]` while the spec's invariant
`fittedValues[i] = slope * i_local + intercept` demands `[0, 1, 2]`. -/
theorem trend_line_uses_global_ordinals :
    trend_line [⟨0, 0, 5⟩, ⟨1, 0, 0⟩, ⟨2, 0, 1⟩, ⟨3, 0, 2⟩] 1 3 = some [1, 2, 3]
    ∧ fittedValuesLocal [⟨0, 0, 5⟩, ⟨1, 0, 0⟩, ⟨2, 0, 1⟩, ⟨3, 0, 2⟩] 1 3 = some [0, 1, 2]
    ∧ trend_line [⟨0, 0, 5⟩, ⟨1, 0, 0⟩, ⟨2, 0, 1⟩, ⟨3, 0, 2⟩] 1 3
        ≠ fittedValuesLocal [⟨0, 0, 5⟩, ⟨1, 0, 0⟩, ⟨2, 0, 1⟩, ⟨3, 0, 2⟩] 1 3 := by
  have hgtp : get_trendline_params [⟨0, 0, 5⟩, ⟨1, 0, 0⟩, ⟨2, 0, 1⟩, ⟨3, 0, 2⟩] 1 3
      = some (1, 0, [⟨1, 0, 0⟩, ⟨2, 0, 1⟩, ⟨3, 0, 2⟩]) := by
    have hfilt : ([⟨0, 0, 5⟩, ⟨1, 0, 0⟩, ⟨2, 0, 1⟩, ⟨3, 0, 2⟩] : List MonthlyBucket).filter
        (inRange 1 3) = [⟨1, 0, 0⟩, ⟨2, 0, 1⟩, ⟨3, 0, 2⟩] := by decide
    simp only [get_trendline_params, hfilt]
    norm_num [linregress, List.range_succ]
  have hidx : subsetIndices [⟨0, 0, 5⟩, ⟨1, 0, 0⟩, ⟨2, 0, 1⟩, ⟨3, 0, 2⟩] 1 3 = [1, 2, 3] := by
    decide
  have h1 : trend_line [⟨0, 0, 5⟩, ⟨1, 0, 0⟩, ⟨2, 0, 1⟩, ⟨3, 0, 2⟩] 1 3 = some [1, 2, 3] := by
    simp only [trend_line, hgtp, hidx]
    norm_num
  have h2 : fittedValuesLocal [⟨0, 0, 5⟩, ⟨1, 0, 0⟩, ⟨2, 0, 1⟩, ⟨3, 0, 2⟩] 1 3
      = some [0, 1, 2] := by
    simp only [fittedValuesLocal, hgtp]
    norm_num [List.range_succ]
  refine ⟨h1, h2, ?_⟩
  rw [h1, h2]
  decide

/-! ## Lemmas about the Extremum Annotator -/

/-- Recursive characterisation of `argmaxIdx` on a strictly increasing
index list: it returns a member attaining the maximum value, and the least
such index (first occurrence). -/
theorem argmaxIdx_spec (v : ℕ → ℤ) :
    ∀ l : List ℕ, l ≠ [] → l.Pairwise (· < ·) →
      ∃ i, argmaxIdx v l = some i ∧ i ∈ l ∧
        ∀ k ∈ l, v k ≤ v i ∧ (v k = v i → i ≤ k) := by
  intro l
  induction l with
  | nil => intro h; exact absurd rfl h
  | cons a rest ih =>
      intro _ hpair
      obtain ⟨ha, htail⟩ := List.pairwise_cons.mp hpair
      by_cases hrest : rest = []
      · subst hrest
        refine ⟨a, rfl, List.mem_cons_self _ _, ?_⟩
        intro k hk
        rw [List.mem_singleton] at hk
        subst hk
        exact ⟨le_refl _, fun _ => le_refl _⟩
      · obtain ⟨j, hj, hjmem, hjspec⟩ := ih hrest htail
        by_cases hcomp : v j > v a
        · refine ⟨j, ?_, List.mem_cons_of_mem _ hjmem, ?_⟩
          · simp only [argmaxIdx, hj]
            rw [if_pos hcomp]
          · intro k hk
            rcases List.mem_cons.mp hk with hk | hk
            · subst hk
              exact ⟨le_of_lt hcomp, fun he => absurd he.symm (ne_of_gt hcomp)⟩
            · exact hjspec k hk
        · refine ⟨a, ?_, List.mem_cons_self _ _, ?_⟩
          · simp only [argmaxIdx, hj]
            rw [if_neg hcomp]
          · intro k hk
            rcases List.mem_cons.mp hk with hk | hk
            · subst hk
              exact ⟨le_refl _, fun _ => le_refl _⟩
            · refine ⟨le_trans (hjspec k hk).1 (not_lt.mp hcomp), fun _ => le_of_lt (ha k hk)⟩

/-- Specialisation of `argmaxIdx_spec` to an index set cut out of
`0..N−1` by a boolean predicate, as both annotator entry points do. -/
theorem argmax_filter_spec (ms : List MonthlyBucket) (q : ℕ → Bool)
    (hne : ∃ n, n < ms.length ∧ q n = true) :
    ∃ i, argmaxIdx (tbVal ms) ((List.range ms.length).filter q) = some i
      ∧ i < ms.length ∧ q i = true
      ∧ ∀ k, k < ms.length → q k = true →
          tbVal ms k ≤ tbVal ms i ∧ (tbVal ms k = tbVal ms i → i ≤ k) := by
  obtain ⟨n, hn, hq⟩ := hne
  have hmem : n ∈ (List.range ms.length).filter q :=
    List.mem_filter.mpr ⟨List.mem_range.mpr hn, hq⟩
  have hpair : ((List.range ms.length).filter q).Pairwise (· < ·) :=
    (List.pairwise_lt_range _).filter _
  obtain ⟨i, hi, himem, hispec⟩ :=
    argmaxIdx_spec (tbVal ms) _ (List.ne_nil_of_mem hmem) hpair
  have h1 := List.mem_filter.mp himem
  refine ⟨i, hi, List.mem_range.mp h1.1, h1.2, ?_⟩
  intro k hk hqk
  exact hispec k (List.mem_filter.mpr ⟨List.mem_range.mpr hk, hqk⟩)

/-- Claim C5: with both partitions non-empty, the annotator returns for
each partition (periods strictly before the breakpoint, respectively on or
after it) an ordinal of that partition whose value is maximal, and among
maximisers the earliest ordinal (ties resolve to the first occurrence). -/
theorem extremum_first_argmax (ms : List MonthlyBucket) (bp : Period)
    (hpre : ∃ b ∈ ms, b.period < bp) (hpost : ∃ b ∈ ms, bp ≤ b.period) :
    ∃ i j,
      highest_point_before ms bp = some i ∧ highest_point_on_after ms bp = some j
      ∧ i < ms.length ∧ (ms.getD i default).period < bp
      ∧ (∀ k, k < ms.length → (ms.getD k default).period < bp →
            tbVal ms k ≤ tbVal ms i ∧ (tbVal ms k = tbVal ms i → i ≤ k))
      ∧ j < ms.length ∧ bp ≤ (ms.getD j default).period
      ∧ (∀ k, k < ms.length → bp ≤ (ms.getD k default).period →
            tbVal ms k ≤ tbVal ms j ∧ (tbVal ms k = tbVal ms j → j ≤ k)) := by
  obtain ⟨b, hbmem, hblt⟩ := hpre
  obtain ⟨⟨n, hn⟩, hget⟩ := List.mem_iff_get.mp hbmem
  have hqn : decide ((ms.getD n default).period < bp) = true := by
    rw [List.getD_eq_get _ _ hn, hget]
    exact decide_eq_true hblt
  obtain ⟨c, hcmem, hcge⟩ := hpost
  obtain ⟨⟨m, hm⟩, hgetc⟩ := List.mem_iff_get.mp hcmem
  have hqm : decide (bp ≤ (ms.getD m default).period) = true := by
    rw [List.getD_eq_get _ _ hm, hgetc]
    exact decide_eq_true hcge
  obtain ⟨i, hi, hilen, hqi, hispec⟩ :=
    argmax_filter_spec ms (fun k => decide ((ms.getD k default).period < bp)) ⟨n, hn, hqn⟩
  obtain ⟨j, hj, hjlen, hqj, hjspec⟩ :=
    argmax_filter_spec ms (fun k => decide (bp ≤ (ms.getD k default).period)) ⟨m, hm, hqm⟩
  refine ⟨i, j, hi, hj, hilen, of_decide_eq_true hqi, ?_, hjlen, of_decide_eq_true hqj, ?_⟩
  · intro k hk hklt
    exact hispec k hk (decide_eq_true hklt)
  · intro k hk hkge
    exact hjspec k hk (decide_eq_true hkge)

/-- Claim C5 witness: the spec's worked example — buckets
`[(2016-01,10),(2016-02,50),(2017-01,30),(2017-02,80)]` with breakpoint
`2017-01` (periods as month numbers 0, 1, 12, 13 and breakpoint 12) —
where the pre-maximum sits at ordinal 1 and the post-maximum at ordinal 3. -/
theorem extremum_first_argmax_witness :
    (∃ b ∈ ([⟨0, 0, 10⟩, ⟨1, 0, 50⟩, ⟨12, 0, 30⟩, ⟨13, 0, 80⟩] : List MonthlyBucket),
        b.period < 12)
    ∧ (∃ b ∈ ([⟨0, 0, 10⟩, ⟨1, 0, 50⟩, ⟨12, 0, 30⟩, ⟨13, 0, 80⟩] : List MonthlyBucket),
        (12 : Period) ≤ b.period)
    ∧ highest_point_before [⟨0, 0, 10⟩, ⟨1, 0, 50⟩, ⟨12, 0, 30⟩, ⟨13, 0, 80⟩] 12 = some 1
    ∧ highest_point_on_after [⟨0, 0, 10⟩, ⟨1, 0, 50⟩, ⟨12, 0, 30⟩, ⟨13, 0, 80⟩] 12 = some 3
    ∧ (∃ i j,
        highest_point_before [⟨0, 0, 10⟩, ⟨1, 0, 50⟩, ⟨12, 0, 30⟩, ⟨13, 0, 80⟩] 12 = some i
        ∧ highest_point_on_after [⟨0, 0, 10⟩, ⟨1, 0, 50⟩, ⟨12, 0, 30⟩, ⟨13, 0, 80⟩] 12 = some j
        ∧ i < ([⟨0, 0, 10⟩, ⟨1, 0, 50⟩, ⟨12, 0, 30⟩, ⟨13, 0, 80⟩] : List MonthlyBucket).length
        ∧ (([⟨0, 0, 10⟩, ⟨1, 0, 50⟩, ⟨12, 0, 30⟩, ⟨13, 0, 80⟩] : List MonthlyBucket).getD i
            default).period < 12
        ∧ (∀ k, k < ([⟨0, 0, 10⟩, ⟨1, 0, 50⟩, ⟨12, 0, 30⟩, ⟨13, 0, 80⟩] :
              List MonthlyBucket).length →
            (([⟨0, 0, 10⟩, ⟨1, 0, 50⟩, ⟨12, 0, 30⟩, ⟨13, 0, 80⟩] :
              List MonthlyBucket).getD k default).period < 12 →
            tbVal [⟨0, 0, 10⟩, ⟨1, 0, 50⟩, ⟨12, 0, 30⟩, ⟨13, 0, 80⟩] k
                ≤ tbVal [⟨0, 0, 10⟩, ⟨1, 0, 50⟩, ⟨12, 0, 30⟩, ⟨13, 0, 80⟩] i
              ∧ (tbVal [⟨0, 0, 10⟩, ⟨1, 0, 50⟩, ⟨12, 0, 30⟩, ⟨13, 0, 80⟩] k
                  = tbVal [⟨0, 0, 10⟩, ⟨1, 0, 50⟩, ⟨12, 0, 30⟩, ⟨13, 0, 80⟩] i → i ≤ k))
        ∧ j < ([⟨0, 0, 10⟩, ⟨1, 0, 50⟩, ⟨12, 0, 30⟩, ⟨13, 0, 80⟩] : List MonthlyBucket).length
        ∧ (12 : Period) ≤ (([⟨0, 0, 10⟩, ⟨1, 0, 50⟩, ⟨12, 0, 30⟩, ⟨13, 0, 80⟩] :
            List MonthlyBucket).getD j default).period
        ∧ (∀ k, k < ([⟨0, 0, 10⟩, ⟨1, 0, 50⟩, ⟨12, 0, 30⟩, ⟨13, 0, 80⟩] :
              List MonthlyBucket).length →
            (12 : Period) ≤ (([⟨0, 0, 10⟩, ⟨1, 0, 50⟩, ⟨12, 0, 30⟩, ⟨13, 0, 80⟩] :
              List MonthlyBucket).getD k default).period →
            tbVal [⟨0, 0, 10⟩, ⟨1, 0, 50⟩, ⟨12, 0, 30⟩, ⟨13, 0, 80⟩] k
                ≤ tbVal [⟨0, 0, 10⟩, ⟨1, 0, 50⟩, ⟨12, 0, 30⟩, ⟨13, 0, 80⟩] j
              ∧ (tbVal [⟨0, 0, 10⟩, ⟨1, 0, 50⟩, ⟨12, 0, 30⟩, ⟨13, 0, 80⟩] k
                  = tbVal [⟨0, 0, 10⟩, ⟨1, 0, 50⟩, ⟨12, 0, 30⟩, ⟨13, 0, 80⟩] j → j ≤ k))) :=
  ⟨by decide, by decide, by decide, by decide,
    extremum_first_argmax [⟨0, 0, 10⟩, ⟨1, 0, 50⟩, ⟨12, 0, 30⟩, ⟨13, 0, 80⟩] 12
      (by decide) (by decide)⟩

end GraphTrends
